import Mathlib

/-!
Verification of the fragment-coordination and compositing engine of the
`paster` programs (`src/paster_parallel.c`, worker-pool mode, and
`src/paster_nbio.c`, event-multiplexer mode).

Both C files share the compile-time configuration

  #define N 20
  #define WIDTH 4000
  #define HEIGHT 3000
  #define BUF_WIDTH WIDTH/N
  #define BUF_HEIGHT HEIGHT
  #define BUF_SIZE 10485760
  #define ECE459_HEADER "X-Ece459-Fragment: "

Machine integers that matter here (canvas indices, loop counters, buffer
positions) stay far below 2^31 in the executions the claims quantify over,
so they are embedded as `Nat`; the one place C unsigned arithmetic shows
through (`strtoul` of a negative string) wraps modulo 2^64 explicitly.
Byte stores (the canvas `output_buffer`, the fetch buffer) are embedded as
total functions `Nat → Nat`; a C array write becomes a pointwise
functional update.  The fragment tracker `received_fragments` is indexed
by `Int` because `header_cb` stores through an `atoi`-produced index,
which can be negative.  The pthread mutexes in `paster_parallel.c` only
serialize the calls they guard; the guarded bodies are embedded as the
corresponding pure state transformers.
-/

namespace Paster

def N : Nat := 20

def WIDTH : Nat := 4000

def HEIGHT : Nat := 3000

def BUF_WIDTH : Nat := WIDTH / N

def BUF_HEIGHT : Nat := HEIGHT

def BUF_SIZE : Nat := 10485760

/-- A single C byte-array store `d[j] = v`, on a store embedded as `Nat → Nat`. -/
def upd (d : Nat → Nat) (j v : Nat) : Nat → Nat :=
  fun k => if k = j then v else d k

/-- Sequential execution of a list of stores `d[p.1] = p.2`, first to last. -/
def applyWrites (ps : List (Nat × Nat)) (d : Nat → Nat) : Nat → Nat :=
  ps.foldl (fun d p => upd d p.1 p.2) d

namespace parallel

/-- `paint_destination` from `src/paster_parallel.c` (lines 141-157).
The C loop is

  for (y=0; y<BUF_HEIGHT && (y0+y) < HEIGHT; y++)
    for (x=0; x<BUF_WIDTH; x++)
      for (i = 0; i < 4; i++)
        dest[((y0+y)*WIDTH+(x0+x))*4 + i] = row_pointers[y][x*4+i];

The `y` guard `y < BUF_HEIGHT && y0+y < HEIGHT` holds exactly for
`y < min BUF_HEIGHT (HEIGHT - y0)` (both conjuncts are monotone in `y`),
so the loop is embedded as a fold over that range.  `row_pointers` is
embedded as the total function `rows : Nat → Nat → Nat` (row index →
byte offset in the row → byte).  The `paint_destination_lock` mutex
only serializes calls; the guarded body is this pure transformer. -/
def paint_destination (rows : Nat → Nat → Nat) (x0 y0 : Nat) (dest : Nat → Nat) :
    Nat → Nat :=
  (List.range (min BUF_HEIGHT (HEIGHT - y0))).foldl (fun d y =>
    (List.range BUF_WIDTH).foldl (fun d x =>
      (List.range 4).foldl (fun d i =>
        upd d (((y0 + y) * WIDTH + (x0 + x)) * 4 + i) (rows y (x * 4 + i))) d) d) dest

/-- The completion check from `thread_function` (`src/paster_parallel.c`
lines 368-373):

  received_all_fragments = true;
  for (int i = 0; i < N; i++)
    if (!tf_context->received_fragments[i])
      received_all_fragments = false;
-/
def received_all_fragments (flags : Int → Bool) : Bool :=
  (List.range N).foldl (fun b i => if flags (Int.ofNat i) then b else false) true

end parallel

namespace nbio

/-- `paint_destination` from `src/paster_nbio.c` (lines 131-145): textually
the same loop as in `paster_parallel.c`, without the mutex. -/
def paint_destination (rows : Nat → Nat → Nat) (x0 y0 : Nat) (dest : Nat → Nat) :
    Nat → Nat :=
  (List.range (min BUF_HEIGHT (HEIGHT - y0))).foldl (fun d y =>
    (List.range BUF_WIDTH).foldl (fun d x =>
      (List.range 4).foldl (fun d i =>
        upd d (((y0 + y) * WIDTH + (x0 + x)) * 4 + i) (rows y (x * 4 + i))) d) d) dest

/-- The completion check from `main` (`src/paster_nbio.c` lines 446-449),
textually the same loop as in `paster_parallel.c`. -/
def received_all_fragments (flags : Int → Bool) : Bool :=
  (List.range N).foldl (fun b i => if flags (Int.ofNat i) then b else false) true

end nbio

/-- The list of `(canvas index, byte)` stores performed by one
`paint_destination` call, in program order. -/
def writeList (rows : Nat → Nat → Nat) (x0 y0 : Nat) : List (Nat × Nat) :=
  (List.range (min BUF_HEIGHT (HEIGHT - y0))).flatMap fun y =>
    (List.range BUF_WIDTH).flatMap fun x =>
      (List.range 4).map fun i =>
        (((y0 + y) * WIDTH + (x0 + x)) * 4 + i, rows y (x * 4 + i))

/-- Canvas index `j` is written by `paint_destination` at region offset
`(x0, y0)`: some loop iteration `(y, x, i)` targets it.  (Independent of the
decoded pixel data.) -/
def writes (x0 y0 j : Nat) : Prop :=
  ∃ y, y < min BUF_HEIGHT (HEIGHT - y0) ∧ ∃ x, x < BUF_WIDTH ∧ ∃ i, i < 4 ∧
    j = ((y0 + y) * WIDTH + (x0 + x)) * 4 + i

namespace parallel

/-- The composite step of `thread_function` (`src/paster_parallel.c` line 360):

  paint_destination(png_ptr, row_pointers, hd.n*BUF_WIDTH, 0, tf_context->output_buffer);

`R id` is the decoded row data delivered for fragment index `id`. -/
def composite_step (R : Nat → Nat → Nat → Nat) (dest : Nat → Nat) (id : Nat) :
    Nat → Nat :=
  paint_destination (R id) (id * BUF_WIDTH) 0 dest

/-- The canvas after the run composites the delivered fragment indices `ds`
in order.  `output_buffer = calloc(WIDTH*HEIGHT*4, sizeof(png_byte))`
(`src/paster_parallel.c` line 425) zero-initializes the canvas. -/
def runCanvas (R : Nat → Nat → Nat → Nat) (ds : List Nat) : Nat → Nat :=
  ds.foldl (composite_step R) (fun _ => 0)

end parallel

namespace nbio

/-- The composite step of `main` (`src/paster_nbio.c` line 437):

  paint_destination(png_ptr, row_pointers, curr_context->hd.n*BUF_WIDTH, 0, output_buffer);
-/
def composite_step (R : Nat → Nat → Nat → Nat) (dest : Nat → Nat) (id : Nat) :
    Nat → Nat :=
  paint_destination (R id) (id * BUF_WIDTH) 0 dest

/-- The canvas after the run composites the delivered fragment indices `ds`
in order.  `output_buffer = calloc(WIDTH*HEIGHT*4, sizeof(png_byte))`
(`src/paster_nbio.c` line 403) zero-initializes the canvas. -/
def runCanvas (R : Nat → Nat → Nat → Nat) (ds : List Nat) : Nat → Nat :=
  ds.foldl (composite_step R) (fun _ => 0)

end nbio

/-- The byte a fragment delivery leaves at canvas index `j`: the region id is
the pixel column divided by the fragment width. -/
def fragValue (R : Nat → Nat → Nat → Nat) (j : Nat) : Nat :=
  R (j / 4 % WIDTH / BUF_WIDTH) (j / 4 / WIDTH) ((j / 4 % WIDTH % BUF_WIDTH) * 4 + j % 4)

/-! ### Response-header handling (`header_cb`, common to both files) -/

/-- `#define ECE459_HEADER "X-Ece459-Fragment: "`. -/
def ECE459_HEADER : List Char := "X-Ece459-Fragment: ".toList

/-- C `isspace` in the default locale, as used by `atoi`/`strtoul`. -/
def isSpaceC (c : Char) : Bool :=
  c = ' ' || c = '\t' || c = '\n' || c = '\x0b' || c = '\x0c' || c = '\r'

/-- Accumulate decimal digits, stopping at the first non-digit (the digit
tail of C `atoi`). -/
def atoiDigits : List Char → Int → Int
  | [], acc => acc
  | c :: cs, acc =>
    if c.isDigit then atoiDigits cs (acc * 10 + ((c.toNat : Int) - 48)) else acc

/-- C `atoi`: skip whitespace, optional sign, then decimal digits; returns 0
when no digits follow. -/
def atoi (s : List Char) : Int :=
  match s.dropWhile isSpaceC with
  | '-' :: rest => - atoiDigits rest 0
  | '+' :: rest => atoiDigits rest 0
  | rest => atoiDigits rest 0

/-- `struct headerdata` (both files): the last extracted fragment index and
the shared tracker array. -/
structure headerdata where
  n : Int
  received_fragments : Int → Bool

/-- The tracker store `hd->received_fragments[hd->n] = true` performed by
`header_cb` (guarded by `header_cb_lock` in `paster_parallel.c`, bare in
`paster_nbio.c`; the guarded store is this pure update). -/
def markReceived (flags : Int → Bool) (id : Int) : Int → Bool :=
  fun j => if j = id then true else flags j

/-- The tracker at run start: `received_fragments = calloc(N, sizeof(bool))`
(all-false). -/
def initial_received_fragments : Int → Bool := fun _ => false

/-- `header_cb` from `src/paster_parallel.c` (lines 245-263) and
`src/paster_nbio.c` (lines 224-237); both guard the same body:

  int bytes_in_header = size * nmemb;
  if (bytes_in_header > strlen(ECE459_HEADER)
      && strncmp(buf, ECE459_HEADER, strlen(ECE459_HEADER)) == 0) {
    hd->n = atoi(buf+strlen(ECE459_HEADER));
    hd->received_fragments[hd->n] = true;
  }
  return bytes_in_header;

The returned `Nat` is curl's success signal: a header callback fails the
transfer only by returning a value different from `bytes_in_header`, which
this function never does. -/
def header_cb (buf : List Char) (hd : headerdata) : headerdata × Nat :=
  let bytes_in_header := buf.length
  if ECE459_HEADER.length < bytes_in_header ∧
      buf.take ECE459_HEADER.length = ECE459_HEADER then
    let n := atoi (buf.drop ECE459_HEADER.length)
    (⟨n, markReceived hd.received_fragments n⟩, bytes_in_header)
  else
    (hd, bytes_in_header)

/-- All header lines of one response, processed by `header_cb` in order (curl
calls the header callback once per header line). -/
def process_headers (lines : List (List Char)) (hd : headerdata) : headerdata :=
  lines.foldl (fun h l => (header_cb l h).1) hd

/-- A response header line carries the fragment-index header. -/
def has_fragment_header (buf : List Char) : Prop :=
  ECE459_HEADER.length < buf.length ∧ buf.take ECE459_HEADER.length = ECE459_HEADER

instance has_fragment_header_dec (buf : List Char) :
    Decidable (has_fragment_header buf) :=
  decidable_of_iff
    (ECE459_HEADER.length < buf.length ∧ buf.take ECE459_HEADER.length = ECE459_HEADER)
    Iff.rfl

/-! ### The fetch buffer (`write_cb`, common to both files) -/

/-- `struct bufdata` (both files).  `len` and `pos` are C `int`s that only
ever accumulate chunk sizes, embedded as `Nat`. -/
structure bufdata where
  buf : Nat → Nat
  len : Nat
  pos : Nat
  max_size : Nat

/-- `write_cb` from `src/paster_parallel.c` (lines 163-174) and
`src/paster_nbio.c` (lines 151-162):

  if (size * nmemb >= bd->max_size) { return 0; }
  memcpy(bd->buf+bd->pos, ptr, size * nmemb);
  bd->pos += size*nmemb;
  bd->len += size*nmemb;
  return size * nmemb;

Returning 0 makes curl abort the transfer (a fatal error at the call site);
returning `size * nmemb` accepts the chunk. -/
def write_cb (chunk : Nat → Nat) (size nmemb : Nat) (bd : bufdata) : bufdata × Nat :=
  if bd.max_size ≤ size * nmemb then
    (bd, 0)
  else
    (⟨fun k => if bd.pos ≤ k ∧ k < bd.pos + size * nmemb then chunk (k - bd.pos) else bd.buf k,
      bd.len + size * nmemb, bd.pos + size * nmemb, bd.max_size⟩,
     size * nmemb)

/-- Feed a whole response body, split into chunks, through `write_cb`,
recording the buffer state and every callback return value. -/
def write_chunks : List ((Nat → Nat) × Nat) → bufdata → bufdata × List Nat
  | [], bd => (bd, [])
  | (chunk, sz) :: rest, bd =>
    let r := write_cb chunk sz 1 bd
    let rec' := write_chunks rest r.1
    (rec'.1, r.2 :: rec'.2)

/-! ### The endpoint rotator (`get_url`, common to both files) -/

/-- `get_url` from `src/paster_parallel.c` (lines 280-303) and
`src/paster_nbio.c` (lines 243-262):

  switch (counter) {
  case 0: sprintf(*url, BASE_URL_1, img); break;
  case 1: sprintf(*url, BASE_URL_2, img); break;
  case 2: default: sprintf(*url, BASE_URL_3, img); break;
  }
  counter = (counter + 1) % 3;

Result: the selected endpoint (0, 1 or 2 for BASE_URL_1/2/3) and the new
counter.  The static `counter` is zero-initialized; `get_url_lock` in
`paster_parallel.c` only serializes calls. -/
def get_url (counter : Nat) : Nat × Nat :=
  (match counter with
   | 0 => 0
   | 1 => 1
   | _ => 2,
   (counter + 1) % 3)

/-- The rotator counter after `k` sequential `get_url` calls from state `c0`. -/
def counterIter (c0 : Nat) : Nat → Nat
  | 0 => c0
  | k + 1 => (get_url (counterIter c0 k)).2

/-- The endpoint selected by the `k`-th sequential `get_url` call (0-based)
from initial counter `c0`. -/
def sel (c0 k : Nat) : Nat := (get_url (counterIter c0 k)).1

/-- How many of the first `M` sequential calls select endpoint `e`. -/
def countSel (c0 M e : Nat) : Nat :=
  ((List.range M).filter fun k => sel c0 k = e).length

/-! ### Command-line parsing (`main` of both files) -/

inductive CliResult where
  /-- the `getopt` loop ended; `num_threads` and `img` are the final values -/
  | ok (num_threads img : Nat)
  /-- an option value failed the `== 0` check: usage text printed, `return -1` -/
  | usage_error
  /-- `getopt` produced an unknown-option character: the `default:` branch, `return -1` -/
  | opt_error
deriving DecidableEq

/-- The digit tail of C `strtoul` (base 10). -/
def strtoulDigits : List Char → Nat → Nat
  | [], acc => acc
  | c :: cs, acc =>
    if c.isDigit then strtoulDigits cs (acc * 10 + (c.toNat - 48)) else acc

/-- C `strtoul(s, NULL, 10)`: skip whitespace, optional sign (a minus sign
wraps as `unsigned long`), then decimal digits; 0 when no digits follow.
(Values at or beyond `ULONG_MAX`, which clamp with `ERANGE`, do not occur in
the inputs considered here.) -/
def strtoul10 (s : List Char) : Nat :=
  match s.dropWhile isSpaceC with
  | '-' :: rest => (2 ^ 64 - strtoulDigits rest 0 % 2 ^ 64) % 2 ^ 64
  | '+' :: rest => strtoulDigits rest 0
  | rest => strtoulDigits rest 0

/-- `getopt(argc, argv, "t:")` as called by `main` of `src/paster_parallel.c`
(line 395): for a supplied option character, `getopt` yields the character
itself when it appears in the optstring, and `?` otherwise.  The optstring
is "t:", so only `t` is recognized. -/
def getopt_char_parallel (flag : Char) : Char :=
  if flag = 't' then 't' else '?'

/-- `getopt(argc, argv, "t:i:")` as called by `main` of `src/paster_nbio.c`
(line 357): both `t` and `i` are recognized. -/
def getopt_char_nbio (flag : Char) : Char :=
  if flag = 't' || flag = 'i' then flag else '?'

/-- The option-processing loop of `main` in `src/paster_parallel.c`
(lines 395-414), over the supplied `(option character, optarg)` pairs,
starting from the defaults `num_threads = 4`, `img = 1`:

  switch (c) {
  case 't':
    num_threads = strtoul(optarg, NULL, 10);
    if (num_threads == 0) { printf(...); return -1; }
    break;
  case 'i':
    img = strtoul(optarg, NULL, 10);
    if (img == 0) { printf(...); return -1; }
    break;
  default:
    return -1;
  }

Note the `case 'i'` branch is unreachable through `getopt_char_parallel`
because the optstring is "t:". -/
def parse_args_parallel : List (Char × List Char) → Nat → Nat → CliResult
  | [], num_threads, img => .ok num_threads img
  | (flag, optarg) :: rest, num_threads, img =>
    match getopt_char_parallel flag with
    | 't' =>
      let v := strtoul10 optarg
      if v = 0 then .usage_error else parse_args_parallel rest v img
    | 'i' =>
      let v := strtoul10 optarg
      if v = 0 then .usage_error else parse_args_parallel rest num_threads v
    | _ => .opt_error

/-- The option-processing loop of `main` in `src/paster_nbio.c`
(lines 357-376): the same switch, but driven by `getopt` with optstring
"t:i:". -/
def parse_args_nbio : List (Char × List Char) → Nat → Nat → CliResult
  | [], num_threads, img => .ok num_threads img
  | (flag, optarg) :: rest, num_threads, img =>
    match getopt_char_nbio flag with
    | 't' =>
      let v := strtoul10 optarg
      if v = 0 then .usage_error else parse_args_nbio rest v img
    | 'i' =>
      let v := strtoul10 optarg
      if v = 0 then .usage_error else parse_args_nbio rest num_threads v
    | _ => .opt_error

/-! ## Theorems -/

theorem foldl_flatMap {α β γ : Type} (f : β → α → β) (g : γ → List α)
    (l : List γ) (b : β) :
    (l.flatMap g).foldl f b = l.foldl (fun b c => (g c).foldl f b) b := by
  induction l generalizing b with
  | nil => rfl
  | cons c l ih => simp [List.flatMap_cons, List.foldl_append, ih]

theorem paint_eq_applyWrites (rows : Nat → Nat → Nat) (x0 y0 : Nat)
    (dest : Nat → Nat) :
    parallel.paint_destination rows x0 y0 dest = applyWrites (writeList rows x0 y0) dest := by
  unfold parallel.paint_destination writeList applyWrites
  simp only [foldl_flatMap, List.foldl_map]

theorem applyWrites_not_mem (ps : List (Nat × Nat)) (d : Nat → Nat) (j : Nat)
    (h : ∀ p ∈ ps, p.1 ≠ j) : applyWrites ps d j = d j := by
  induction ps generalizing d with
  | nil => rfl
  | cons p ps ih =>
    have hstep : applyWrites (p :: ps) d = applyWrites ps (upd d p.1 p.2) := rfl
    rw [hstep, ih _ (fun q hq => h q (List.mem_cons_of_mem _ hq))]
    simp [upd, Ne.symm (h p (List.mem_cons_self _ _))]

theorem applyWrites_mem_const (ps : List (Nat × Nat)) (d : Nat → Nat) (j v : Nat)
    (hmem : ∃ p ∈ ps, p.1 = j) (hval : ∀ p ∈ ps, p.1 = j → p.2 = v) :
    applyWrites ps d j = v := by
  induction ps generalizing d with
  | nil => simp at hmem
  | cons p ps ih =>
    have hstep : applyWrites (p :: ps) d = applyWrites ps (upd d p.1 p.2) := rfl
    rw [hstep]
    by_cases hrest : ∃ q ∈ ps, q.1 = j
    · exact ih _ hrest (fun q hq => hval q (List.mem_cons_of_mem _ hq))
    · have hp : p.1 = j := by
        rcases hmem with ⟨q, hq, hq1⟩
        rcases List.mem_cons.1 hq with rfl | hq
        · exact hq1
        · exact absurd ⟨q, hq, hq1⟩ hrest
      have hnone : ∀ q ∈ ps, q.1 ≠ j := fun q hq hq1 => hrest ⟨q, hq, hq1⟩
      rw [applyWrites_not_mem _ _ _ hnone]
      simp [upd, hp, hval p (List.mem_cons_self _ _) hp]

theorem mem_writeList_iff (rows : Nat → Nat → Nat) (x0 y0 j : Nat) :
    (∃ p ∈ writeList rows x0 y0, p.1 = j) ↔ writes x0 y0 j := by
  simp only [writeList, writes, List.mem_flatMap, List.mem_map, List.mem_range]
  constructor
  · rintro ⟨p, ⟨y, hy, x, hx, i, hi, rfl⟩, h1⟩
    exact ⟨y, hy, x, hx, i, hi, h1.symm⟩
  · rintro ⟨y, hy, x, hx, i, hi, rfl⟩
    exact ⟨_, ⟨y, hy, x, hx, i, hi, rfl⟩, rfl⟩

theorem N_eq : N = 20 := rfl

theorem WIDTH_eq : WIDTH = 4000 := rfl

theorem HEIGHT_eq : HEIGHT = 3000 := rfl

theorem BUF_WIDTH_eq : BUF_WIDTH = 200 := by decide

theorem BUF_HEIGHT_eq : BUF_HEIGHT = 3000 := rfl

/-- Frame property: a canvas index targeted by no loop iteration is untouched. -/
theorem paint_frame (rows : Nat → Nat → Nat) (x0 y0 : Nat) (dest : Nat → Nat)
    (j : Nat) (h : ¬ writes x0 y0 j) :
    parallel.paint_destination rows x0 y0 dest j = dest j := by
  rw [paint_eq_applyWrites]
  exact applyWrites_not_mem _ _ _
    (fun p hp hpj => h ((mem_writeList_iff rows x0 y0 j).1 ⟨p, hp, hpj⟩))

/-- Value property: a written canvas index holds the fragment byte for the
unique loop iteration targeting it (unique because `x0 + BUF_WIDTH ≤ WIDTH`
keeps column indices from wrapping into the next row). -/
theorem paint_value (rows : Nat → Nat → Nat) (x0 y0 : Nat) (dest : Nat → Nat)
    (j : Nat) (hx0 : x0 + BUF_WIDTH ≤ WIDTH) (h : writes x0 y0 j) :
    parallel.paint_destination rows x0 y0 dest j =
      rows (j / 4 / WIDTH - y0) ((j / 4 % WIDTH - x0) * 4 + j % 4) := by
  rw [paint_eq_applyWrites]
  apply applyWrites_mem_const
  · exact (mem_writeList_iff rows x0 y0 j).2 h
  · rintro p hp hpj
    simp only [writeList, List.mem_flatMap, List.mem_map, List.mem_range] at hp
    rcases hp with ⟨y, hy, x, hx, i, hi, rfl⟩
    simp only at hpj ⊢
    rw [BUF_WIDTH_eq] at hx0 hx
    rw [WIDTH_eq] at hx0 hpj ⊢
    have h1 : (j / 4 / 4000 - y0) = y := by omega
    have h2 : (j / 4 % 4000 - x0) * 4 + j % 4 = x * 4 + i := by omega
    rw [h1, h2]

/-- Every index written at region offset `(x0, y0)` is inside the canvas. -/
theorem writes_lt (x0 y0 j : Nat) (hx0 : x0 + BUF_WIDTH ≤ WIDTH)
    (h : writes x0 y0 j) : j < WIDTH * HEIGHT * 4 := by
  rcases h with ⟨y, hy, x, hx, i, hi, rfl⟩
  rw [BUF_WIDTH_eq, WIDTH_eq] at hx0
  rw [BUF_WIDTH_eq] at hx
  rw [BUF_HEIGHT_eq, HEIGHT_eq] at hy
  rw [WIDTH_eq, HEIGHT_eq]
  omega

/-- Every index written at region offset `(x0, y0)` has pixel column in
`[x0, x0 + BUF_WIDTH)`. -/
theorem writes_col (x0 y0 j : Nat) (hx0 : x0 + BUF_WIDTH ≤ WIDTH)
    (h : writes x0 y0 j) :
    x0 ≤ j / 4 % WIDTH ∧ j / 4 % WIDTH < x0 + BUF_WIDTH := by
  rcases h with ⟨y, hy, x, hx, i, hi, rfl⟩
  rw [BUF_WIDTH_eq] at hx ⊢
  rw [BUF_WIDTH_eq, WIDTH_eq] at hx0
  rw [WIDTH_eq]
  omega

theorem flatMap_congr_mem {α β : Type} {l : List α} {f g : α → List β}
    (h : ∀ a ∈ l, f a = g a) : l.flatMap f = l.flatMap g := by
  induction l with
  | nil => rfl
  | cons a l ih =>
    simp only [List.flatMap_cons, h a (List.mem_cons_self _ _),
      ih (fun b hb => h b (List.mem_cons_of_mem _ hb))]

/-- `paint_destination` only ever reads decoded rows with index below
`min BUF_HEIGHT (HEIGHT - y0)`: two decoded inputs agreeing there paint
identically. -/
theorem paint_rows_congr (rows rows' : Nat → Nat → Nat) (x0 y0 : Nat)
    (dest : Nat → Nat)
    (h : ∀ y < min BUF_HEIGHT (HEIGHT - y0), ∀ p, rows y p = rows' y p) :
    parallel.paint_destination rows x0 y0 dest =
      parallel.paint_destination rows' x0 y0 dest := by
  rw [paint_eq_applyWrites, paint_eq_applyWrites]
  have hwl : writeList rows x0 y0 = writeList rows' x0 y0 := by
    unfold writeList
    refine flatMap_congr_mem (fun y hy => ?_)
    refine flatMap_congr_mem (fun x _ => ?_)
    refine List.map_congr_left (fun i _ => ?_)
    rw [h y (List.mem_range.1 hy)]
  rw [hwl]

theorem nbio_paint_eq_parallel : nbio.paint_destination = parallel.paint_destination := rfl

theorem nbio_runCanvas_eq_parallel : nbio.runCanvas = parallel.runCanvas := rfl

theorem nbio_received_eq_parallel :
    nbio.received_all_fragments = parallel.received_all_fragments := rfl

theorem paint_value_id (R : Nat → Nat → Nat → Nat) (b j : Nat) (c : Nat → Nat)
    (hb : b < N) (hw : writes (b * BUF_WIDTH) 0 j) :
    parallel.paint_destination (R b) (b * BUF_WIDTH) 0 c j = fragValue R j := by
  have hx0 : b * BUF_WIDTH + BUF_WIDTH ≤ WIDTH := by
    rw [BUF_WIDTH_eq, WIDTH_eq]
    rw [N_eq] at hb
    omega
  rw [paint_value (R b) _ 0 c j hx0 hw]
  have hcol := writes_col _ 0 j hx0 hw
  unfold fragValue
  rw [BUF_WIDTH_eq] at hcol hx0 ⊢
  rw [WIDTH_eq] at hcol hx0 ⊢
  have h1 : j / 4 % 4000 / 200 = b := by omega
  have h2 : j / 4 % 4000 % 200 = j / 4 % 4000 - b * 200 := by omega
  rw [h1, h2, Nat.sub_zero]

theorem fold_frame (R : Nat → Nat → Nat → Nat) (ds : List Nat) (c : Nat → Nat)
    (j : Nat) (h : ∀ id ∈ ds, ¬ writes (id * BUF_WIDTH) 0 j) :
    ds.foldl (parallel.composite_step R) c j = c j := by
  induction ds generalizing c with
  | nil => rfl
  | cons b ds ih =>
    rw [List.foldl_cons, ih _ (fun id hid => h id (List.mem_cons_of_mem _ hid))]
    exact paint_frame _ _ _ _ _ (h b (List.mem_cons_self _ _))

theorem fold_value (R : Nat → Nat → Nat → Nat) (ds : List Nat) (c : Nat → Nat)
    (j : Nat) (hds : ∀ id ∈ ds, id < N)
    (hex : ∃ a ∈ ds, writes (a * BUF_WIDTH) 0 j) :
    ds.foldl (parallel.composite_step R) c j = fragValue R j := by
  induction ds generalizing c with
  | nil => simp at hex
  | cons b ds ih =>
    rw [List.foldl_cons]
    by_cases hrest : ∃ a ∈ ds, writes (a * BUF_WIDTH) 0 j
    · exact ih _ (fun id hid => hds id (List.mem_cons_of_mem _ hid)) hrest
    · have hb : writes (b * BUF_WIDTH) 0 j := by
        rcases hex with ⟨a, ha, hwa⟩
        rcases List.mem_cons.1 ha with rfl | ha
        · exact hwa
        · exact absurd ⟨a, ha, hwa⟩ hrest
      rw [fold_frame R ds _ j (fun id hid hw => hrest ⟨id, hid, hw⟩)]
      exact paint_value_id R b j c (hds b (List.mem_cons_self _ _)) hb

theorem foldl_and_flag (p : Nat → Bool) (l : List Nat) (b : Bool) :
    l.foldl (fun b i => if p i then b else false) b = (b && l.all fun i => p i) := by
  induction l generalizing b with
  | nil => simp
  | cons a l ih =>
    rw [List.foldl_cons, ih]
    cases hpa : p a <;> simp [hpa]

/-- The completion loop returns true exactly when all `N` tracker flags are
set. -/
theorem received_all_iff (flags : Int → Bool) :
    parallel.received_all_fragments flags = true ↔
      ∀ i : Nat, i < N → flags (Int.ofNat i) = true := by
  unfold parallel.received_all_fragments
  rw [foldl_and_flag (fun i => flags (Int.ofNat i))]
  simp [List.all_eq_true, List.mem_range]

theorem region_fits (id : Nat) (hid : id < N) :
    id * BUF_WIDTH + BUF_WIDTH ≤ WIDTH := by
  rw [BUF_WIDTH_eq, WIDTH_eq]
  rw [N_eq] at hid
  omega

/-! ## Claim C1 -/

/-- C1: for every set of delivered fragments (fragment index `id` always
delivered with the same decoded rows `R id` in both modes), the final canvas
of the worker-pool mode and the final canvas of the event-multiplexer mode
are byte-identical, and both modes use the same termination condition:
the completion checks are the same function, true exactly when all `N`
tracker flags are true. -/
theorem C1_mode_equivalence (R : Nat → Nat → Nat → Nat) (ds1 ds2 : List Nat)
    (h1 : ∀ id ∈ ds1, id < N) (h2 : ∀ id ∈ ds2, id < N)
    (hset : ∀ id, id < N → (id ∈ ds1 ↔ id ∈ ds2)) :
    parallel.runCanvas R ds1 = nbio.runCanvas R ds2 ∧
    (∀ flags : Int → Bool,
      parallel.received_all_fragments flags = nbio.received_all_fragments flags) ∧
    (∀ flags : Int → Bool,
      (parallel.received_all_fragments flags = true ↔
        ∀ i : Nat, i < N → flags (Int.ofNat i) = true)) := by
  refine ⟨?_, fun flags => by rw [nbio_received_eq_parallel], received_all_iff⟩
  funext j
  rw [nbio_runCanvas_eq_parallel]
  unfold parallel.runCanvas
  by_cases hex : ∃ a ∈ ds1, writes (a * BUF_WIDTH) 0 j
  · have hex2 : ∃ a ∈ ds2, writes (a * BUF_WIDTH) 0 j := by
      rcases hex with ⟨a, ha, hw⟩
      exact ⟨a, (hset a (h1 a ha)).1 ha, hw⟩
    rw [fold_value R ds1 _ j h1 hex, fold_value R ds2 _ j h2 hex2]
  · have hex2 : ∀ id ∈ ds2, ¬ writes (id * BUF_WIDTH) 0 j := by
      intro id hid hw
      exact hex ⟨id, (hset id (h2 id hid)).2 hid, hw⟩
    rw [fold_frame R ds1 _ j (fun id hid hw => hex ⟨id, hid, hw⟩),
        fold_frame R ds2 _ j hex2]

theorem C1_mode_equivalence_witness :
    parallel.runCanvas (fun _ _ _ => 3) [1, 0] = nbio.runCanvas (fun _ _ _ => 3) [0, 1, 1] ∧
    (∀ flags : Int → Bool,
      parallel.received_all_fragments flags = nbio.received_all_fragments flags) ∧
    (∀ flags : Int → Bool,
      (parallel.received_all_fragments flags = true ↔
        ∀ i : Nat, i < N → flags (Int.ofNat i) = true)) :=
  C1_mode_equivalence (fun _ _ _ => 3) [1, 0] [0, 1, 1]
    (by decide) (by decide) (by decide)

/-! ## Claim C5 -/

/-- C5 (amended): for every valid fragment id, `composite` copies exactly
`min BUF_HEIGHT (HEIGHT - y0)` rows (with `y0 = 0`: all `BUF_HEIGHT` rows)
of `BUF_WIDTH` pixels × 4 bytes into the canvas at the region's offset, it
reads no decoded row at index `min BUF_HEIGHT (HEIGHT - 0)` or beyond, and
it never writes any byte outside the canvas bounds.  (The row count is
`BUF_HEIGHT`, not `min(decodedRows.height, remaining canvas rows)`: the code
never consults the decoded height.) -/
theorem C5_composite_bounds (id : Nat) (hid : id < N) :
    (∀ j, writes (id * BUF_WIDTH) 0 j → j < WIDTH * HEIGHT * 4) ∧
    (∀ rows dest j, ¬ writes (id * BUF_WIDTH) 0 j →
      parallel.paint_destination rows (id * BUF_WIDTH) 0 dest j = dest j) ∧
    (∀ rows dest j, writes (id * BUF_WIDTH) 0 j →
      parallel.paint_destination rows (id * BUF_WIDTH) 0 dest j =
        rows (j / 4 / WIDTH) ((j / 4 % WIDTH - id * BUF_WIDTH) * 4 + j % 4)) ∧
    (∀ rows rows' dest,
      (∀ y, y < min BUF_HEIGHT (HEIGHT - 0) → ∀ p, rows y p = rows' y p) →
      parallel.paint_destination rows (id * BUF_WIDTH) 0 dest =
        parallel.paint_destination rows' (id * BUF_WIDTH) 0 dest) := by
  refine ⟨fun j hw => writes_lt _ 0 j (region_fits id hid) hw,
    fun rows dest j h => paint_frame rows _ 0 dest j h,
    fun rows dest j hw => ?_,
    fun rows rows' dest h => paint_rows_congr rows rows' _ 0 dest h⟩
  rw [paint_value rows _ 0 dest j (region_fits id hid) hw, Nat.sub_zero]

theorem C5_composite_bounds_witness :
    (∀ j, writes (0 * BUF_WIDTH) 0 j → j < WIDTH * HEIGHT * 4) ∧
    (∀ rows dest j, ¬ writes (0 * BUF_WIDTH) 0 j →
      parallel.paint_destination rows (0 * BUF_WIDTH) 0 dest j = dest j) ∧
    (∀ rows dest j, writes (0 * BUF_WIDTH) 0 j →
      parallel.paint_destination rows (0 * BUF_WIDTH) 0 dest j =
        rows (j / 4 / WIDTH) ((j / 4 % WIDTH - 0 * BUF_WIDTH) * 4 + j % 4)) ∧
    (∀ rows rows' dest,
      (∀ y, y < min BUF_HEIGHT (HEIGHT - 0) → ∀ p, rows y p = rows' y p) →
      parallel.paint_destination rows (0 * BUF_WIDTH) 0 dest =
        parallel.paint_destination rows' (0 * BUF_WIDTH) 0 dest) :=
  C5_composite_bounds 0 (by decide)

/-- C5 as stated is false at a concrete input: a decoded fragment of height 0
(every pair of decoded inputs trivially agrees on all rows below 0) should,
per the claim, contribute `min(0, remaining) = 0` rows and leave the canvas
alone without reading any decoded row; but `paint_destination` (which never
sees the decoded height) overwrites canvas byte 0 and its result depends on
decoded row 0. -/
theorem C5_counterexample :
    (∀ y : Nat, y < 0 → ∀ p : Nat,
      (fun _ _ => (0 : Nat)) y p = (fun _ _ => (1 : Nat)) y p) ∧
    parallel.paint_destination (fun _ _ => 0) 0 0 (fun _ => 5) 0 = 0 ∧
    parallel.paint_destination (fun _ _ => 1) 0 0 (fun _ => 5) 0 = 1 := by
  refine ⟨fun y hy => absurd hy (Nat.not_lt_zero y), ?_, ?_⟩ <;>
    rw [paint_value _ 0 0 _ 0 (by decide)
      ⟨0, by decide, 0, by decide, 0, by decide, by decide⟩]

/-! ## Claim C6 -/

/-- C6: for distinct fragment ids `i ≠ j` in `[0, N)`, the sets of canvas
byte offsets written by `composite(i, ·)` and `composite(j, ·)` are disjoint
(for all decoded inputs: the write set does not depend on the decoded data,
and indices outside it are untouched). -/
theorem C6_region_disjointness (i j : Nat) (hi : i < N) (hj : j < N)
    (hne : i ≠ j) :
    (∀ idx, ¬ (writes (i * BUF_WIDTH) 0 idx ∧ writes (j * BUF_WIDTH) 0 idx)) ∧
    (∀ rows dest idx, ¬ writes (i * BUF_WIDTH) 0 idx →
      parallel.paint_destination rows (i * BUF_WIDTH) 0 dest idx = dest idx) := by
  constructor
  · rintro idx ⟨hwi, hwj⟩
    have hci := writes_col _ 0 idx (region_fits i hi) hwi
    have hcj := writes_col _ 0 idx (region_fits j hj) hwj
    rw [BUF_WIDTH_eq] at hci hcj
    rw [N_eq] at hi hj
    omega
  · exact fun rows dest idx h => paint_frame rows _ 0 dest idx h

theorem C6_region_disjointness_witness :
    (∀ idx, ¬ (writes (0 * BUF_WIDTH) 0 idx ∧ writes (1 * BUF_WIDTH) 0 idx)) ∧
    (∀ rows dest idx, ¬ writes (0 * BUF_WIDTH) 0 idx →
      parallel.paint_destination rows (0 * BUF_WIDTH) 0 dest idx = dest idx) :=
  C6_region_disjointness 0 1 (by decide) (by decide) (by decide)

/-! ## Claim C10 -/

/-- C10: every canvas byte outside all fragment regions composited during
the run still holds its initial calloc value 0 when the finalizer
serializes the canvas, in both modes: the canvas starts all-zero and each
composite writes only inside the region derived from its fragment id. -/
theorem C10_untouched_bytes_zero (R : Nat → Nat → Nat → Nat) (ds : List Nat)
    (j : Nat) (h : ∀ id ∈ ds, ¬ writes (id * BUF_WIDTH) 0 j) :
    parallel.runCanvas R ds j = 0 ∧ nbio.runCanvas R ds j = 0 := by
  rw [nbio_runCanvas_eq_parallel]
  exact ⟨fold_frame R ds _ j h, fold_frame R ds _ j h⟩

theorem C10_untouched_bytes_zero_witness :
    parallel.runCanvas (fun _ _ _ => 1) [0] 800 = 0 ∧
    nbio.runCanvas (fun _ _ _ => 1) [0] 800 = 0 :=
  C10_untouched_bytes_zero (fun _ _ _ => 1) [0] 800 (by
    intro id hid
    have hid0 : id = 0 := by simpa using hid
    subst hid0
    rintro ⟨y, hy, x, hx, i, hi, hj⟩
    rw [BUF_WIDTH_eq] at hx hj
    rw [WIDTH_eq] at hj
    omega)

/-! ## Claim C7 -/

/-- C7: the tracker's flags start all false (`calloc`), `markReceived` only
ever sets flags to true and never clears one, marking an already-true flag
changes no state, and once the completion check holds it holds after every
subsequent `markReceived`, duplicates included. -/
theorem C7_tracker_monotone (f : Int → Bool) (id : Int) :
    (∀ j, initial_received_fragments j = false) ∧
    (∀ j, f j = true → markReceived f id j = true) ∧
    (f id = true → markReceived f id = f) ∧
    (parallel.received_all_fragments f = true →
      parallel.received_all_fragments (markReceived f id) = true) := by
  refine ⟨fun j => rfl, ?_, ?_, ?_⟩
  · intro j hj
    unfold markReceived
    by_cases h : j = id <;> simp [h, hj]
  · intro hid
    funext j
    unfold markReceived
    by_cases h : j = id
    · subst h
      simp [hid]
    · simp [h]
  · intro hall
    rw [received_all_iff] at hall ⊢
    intro i hi
    unfold markReceived
    by_cases h : (Int.ofNat i) = id
    · rw [if_pos h]
    · rw [if_neg h]
      exact hall i hi

theorem C7_tracker_monotone_witness :
    parallel.received_all_fragments (markReceived (fun _ => true) 3) = true :=
  (C7_tracker_monotone (fun _ => true) 3).2.2.2 (by decide)

/-! ## Claim C8 -/

theorem get_url_counter (c : Nat) : (get_url c).2 = (c + 1) % 3 := rfl

theorem get_url_sel (c : Nat) (hc : c < 3) : (get_url c).1 = c := by
  interval_cases c <;> rfl

theorem counterIter_eq (c0 : Nat) (hc0 : c0 < 3) (k : Nat) :
    counterIter c0 k = (c0 + k) % 3 := by
  induction k with
  | zero =>
    simp only [counterIter]
    omega
  | succ k ih =>
    simp only [counterIter, get_url_counter, ih]
    omega

theorem sel_eq (c0 : Nat) (hc0 : c0 < 3) (k : Nat) : sel c0 k = (c0 + k) % 3 := by
  unfold sel
  rw [counterIter_eq c0 hc0 k, get_url_sel _ (Nat.mod_lt _ (by decide))]

theorem countSel_succ (c0 M e : Nat) :
    countSel c0 (M + 1) e = countSel c0 M e + (if sel c0 M = e then 1 else 0) := by
  unfold countSel
  rw [List.range_succ, List.filter_append, List.length_append]
  by_cases h : sel c0 M = e <;> simp [h]

theorem countSel_closed (c0 e : Nat) (hc0 : c0 < 3) (he : e < 3) (M : Nat) :
    countSel c0 M e = (M + 2 - (e + 3 - c0) % 3) / 3 := by
  have hd : (e + 3 - c0) % 3 < 3 := Nat.mod_lt _ (by decide)
  induction M with
  | zero =>
    have h0 : countSel c0 0 e = 0 := rfl
    rw [h0]
    omega
  | succ M ih =>
    rw [countSel_succ, ih, sel_eq c0 hc0 M]
    by_cases h : (c0 + M) % 3 = e <;> simp [h] <;> omega

/-- C8: the endpoint rotator keeps one counter incremented modulo 3 on
every call; sequential selection is the deterministic round-robin
`(c0 + k) % 3`; over any `M ≥ 3` consecutive calls each endpoint is
selected exactly `⌊M/3⌋` or `⌈M/3⌉` times (`⌈M/3⌉ = ⌊M/3⌋ + 1` exactly
when `3 ∤ M`); and no endpoint is skipped in any window of 3 consecutive
calls. -/
theorem C8_round_robin (c0 e M : Nat) (hc0 : c0 < 3) (he : e < 3)
    (hM : 3 ≤ M) :
    (∀ c, (get_url c).2 = (c + 1) % 3) ∧
    (∀ k, sel c0 k = (c0 + k) % 3) ∧
    (countSel c0 M e = M / 3 ∨ (M % 3 ≠ 0 ∧ countSel c0 M e = M / 3 + 1)) ∧
    (∀ s, ∃ k, k < 3 ∧ sel c0 (s + k) = e) := by
  refine ⟨fun c => rfl, sel_eq c0 hc0, ?_, ?_⟩
  · have hd : (e + 3 - c0) % 3 < 3 := Nat.mod_lt _ (by decide)
    rw [countSel_closed c0 e hc0 he M]
    omega
  · intro s
    refine ⟨(e + 3 - (c0 + s) % 3) % 3, Nat.mod_lt _ (by decide), ?_⟩
    rw [sel_eq c0 hc0]
    omega

theorem C8_round_robin_witness :
    (∀ c, (get_url c).2 = (c + 1) % 3) ∧
    (∀ k, sel 0 k = (0 + k) % 3) ∧
    (countSel 0 4 1 = 4 / 3 ∨ (4 % 3 ≠ 0 ∧ countSel 0 4 1 = 4 / 3 + 1)) ∧
    (∀ s, ∃ k, k < 3 ∧ sel 0 (s + k) = 1) :=
  C8_round_robin 0 1 4 (by decide) (by decide) (by decide)

/-! ## Claim C2 -/

theorem header_cb_no_match (l : List Char) (hd : headerdata)
    (h : ¬ has_fragment_header l) : header_cb l hd = (hd, l.length) := by
  have h' : ¬ (ECE459_HEADER.length < l.length ∧
      l.take ECE459_HEADER.length = ECE459_HEADER) := h
  simp only [header_cb]
  rw [if_neg h']

/-- C2 (amended): a response whose metadata lacks the fragment-index header
is not detected: `header_cb` leaves the header state (extracted fragment
index and tracker) unchanged and returns the full header length — curl's
success signal — for every such line, so the run proceeds with no
protocol-violation failure and the pipeline composites at the previously
stored index, one not extracted from the response that produced the
decoded data. -/
theorem C2_missing_header_ignored (lines : List (List Char)) (hd : headerdata)
    (h : ∀ l ∈ lines, ¬ has_fragment_header l) :
    process_headers lines hd = hd ∧
    (∀ l ∈ lines, (header_cb l hd).2 = l.length) := by
  constructor
  · induction lines with
    | nil => rfl
    | cons l lines ih =>
      have hstep : process_headers (l :: lines) hd =
          process_headers lines (header_cb l hd).1 := rfl
      rw [hstep, header_cb_no_match l hd (h l (List.mem_cons_self _ _))]
      exact ih (fun l' hl' => h l' (List.mem_cons_of_mem _ hl'))
  · intro l hl
    rw [header_cb_no_match l hd (h l hl)]

theorem C2_missing_header_ignored_witness :
    process_headers ["HTTP/1.1 200 OK".toList, "Content-Type: image/png".toList]
        ⟨7, fun _ => false⟩ = ⟨7, fun _ => false⟩ ∧
    (∀ l ∈ ["HTTP/1.1 200 OK".toList, "Content-Type: image/png".toList],
      (header_cb l ⟨7, fun _ => false⟩).2 = l.length) :=
  C2_missing_header_ignored _ _ (by decide)

/-- C2 is false at a concrete input: a response whose only headers are a
status line and a content type (no fragment-index header) does not make the
run fail — `header_cb` reports success (the full byte count) on each line
and leaves the previously stored fragment index 7 in place, which the
pipeline then composites at. -/
theorem C2_counterexample :
    (∀ l ∈ ["HTTP/1.1 200 OK".toList, "Content-Length: 100".toList],
      ¬ has_fragment_header l ∧ (header_cb l ⟨7, fun _ => false⟩).2 = l.length) ∧
    (process_headers ["HTTP/1.1 200 OK".toList, "Content-Length: 100".toList]
        ⟨7, fun _ => false⟩).n = 7 := by
  constructor
  · decide
  · rfl

/-! ## Claim C3 -/

/-- C3 (amended): the mark-received store performs no range check: for every
header line carrying the fragment-index prefix, `header_cb` unconditionally
writes `true` at the parsed index — whether or not it lies in `[0, N)`; an
out-of-range index is an out-of-bounds store into the `N`-element C array —
stores that index as `n`, and returns the full header length (success).  No
abort occurs. -/
theorem C3_no_range_check (l : List Char) (hd : headerdata)
    (h : has_fragment_header l) :
    (header_cb l hd).1.received_fragments (atoi (l.drop ECE459_HEADER.length)) = true ∧
    (header_cb l hd).1.n = atoi (l.drop ECE459_HEADER.length) ∧
    (header_cb l hd).2 = l.length := by
  have h' : ECE459_HEADER.length < l.length ∧
      l.take ECE459_HEADER.length = ECE459_HEADER := h
  simp only [header_cb]
  rw [if_pos h']
  refine ⟨?_, rfl, rfl⟩
  simp [markReceived]

theorem C3_no_range_check_witness :
    (header_cb ("X-Ece459-Fragment: 25".toList) ⟨0, initial_received_fragments⟩).1.received_fragments
        (atoi (("X-Ece459-Fragment: 25".toList).drop ECE459_HEADER.length)) = true ∧
    (header_cb ("X-Ece459-Fragment: 25".toList) ⟨0, initial_received_fragments⟩).1.n =
      atoi (("X-Ece459-Fragment: 25".toList).drop ECE459_HEADER.length) ∧
    (header_cb ("X-Ece459-Fragment: 25".toList) ⟨0, initial_received_fragments⟩).2 =
      ("X-Ece459-Fragment: 25".toList).length :=
  C3_no_range_check _ _ (by decide)

/-- C3 is false at a concrete input: the header `X-Ece459-Fragment: 25`
carries the out-of-range index 25 (`N = 20`), yet `header_cb` silently sets
the tracker flag at 25 and returns the full header length (success, no
abort). -/
theorem C3_counterexample :
    N ≤ 25 ∧
    atoi (("X-Ece459-Fragment: 25".toList).drop ECE459_HEADER.length) = 25 ∧
    (header_cb ("X-Ece459-Fragment: 25".toList)
        ⟨0, initial_received_fragments⟩).1.received_fragments 25 = true ∧
    (header_cb ("X-Ece459-Fragment: 25".toList)
        ⟨0, initial_received_fragments⟩).2 =
      ("X-Ece459-Fragment: 25".toList).length := by
  decide

/-! ## Claim C4 -/

/-- C4 is violated by the code: `write_cb` compares only the current chunk's
size against the capacity (`size * nmemb >= bd->max_size`), not the
accumulated position.  A body delivered as two 6,000,000-byte chunks —
total 12,000,000 > BUF_SIZE = 10,485,760 — is fully accepted (both calls
return the full chunk size, curl's success), the position advances to
12,000,000, and the byte at offset BUF_SIZE (beyond the buffer's capacity)
holds chunk data.  Only a single chunk at or above the capacity is
rejected (the final conjunct: the guard that shows the intended hard
failure). -/
theorem C4_overflow_failing_input :
    (write_chunks [(fun _ => 7, 6000000), (fun _ => 7, 6000000)]
        ⟨fun _ => 0, 0, 0, BUF_SIZE⟩).2 = [6000000, 6000000] ∧
    (write_chunks [(fun _ => 7, 6000000), (fun _ => 7, 6000000)]
        ⟨fun _ => 0, 0, 0, BUF_SIZE⟩).1.pos = 12000000 ∧
    BUF_SIZE < 12000000 ∧
    (write_chunks [(fun _ => 7, 6000000), (fun _ => 7, 6000000)]
        ⟨fun _ => 0, 0, 0, BUF_SIZE⟩).1.buf BUF_SIZE = 7 ∧
    (write_cb (fun _ => 7) BUF_SIZE 1 ⟨fun _ => 0, 0, 0, BUF_SIZE⟩).2 = 0 := by
  decide

/-! ## Claim C9 -/

/-- C9 is violated by `paster_parallel`: its `getopt` optstring is "t:", so
the image-id option `-i` is rejected as an unknown option (the `default:`
branch returns -1) and is never honored — the switch's `case 'i'` is dead
code.  `paster_nbio` (optstring "t:i:") honors both options; both programs
default to 4 threads and image 1, honor valid values, and reject a zero
value with usage guidance and a non-zero exit. -/
theorem C9_cli_options :
    parse_args_parallel [('i', "2".toList)] 4 1 = CliResult.opt_error ∧
    parse_args_nbio [('i', "2".toList)] 4 1 = CliResult.ok 4 2 ∧
    parse_args_parallel [('t', "8".toList)] 4 1 = CliResult.ok 8 1 ∧
    parse_args_nbio [('t', "8".toList), ('i', "2".toList)] 4 1 = CliResult.ok 8 2 ∧
    parse_args_parallel [] 4 1 = CliResult.ok 4 1 ∧
    parse_args_nbio [] 4 1 = CliResult.ok 4 1 ∧
    parse_args_parallel [('t', "0".toList)] 4 1 = CliResult.usage_error ∧
    parse_args_nbio [('i', "0".toList)] 4 1 = CliResult.usage_error := by
  decide
